import Mathlib

/-!
Verification of the agentecs tick-execution core against its specification.

The definitions below are a shallow embedding of the Python source under
`src/agentecs/`.  Python `dict`s are modelled as insertion-ordered
association lists (`dget?` / `dset` / `derase` mirror `d[k]`, `d[k] = v`
and `del d[k]`), Python `in` on containers is `decide (· ∈ ·)`, exceptions
are `Except PyErr`, and opaque user component instances are records
carrying their runtime class (`ctype`) and an integer payload standing for
the field values.  The unfinished shared-component machinery
(`Shared` wrapper, `@component(shared=True)`) is outside every claim: for
plain dataclass components all `_is_shared*` guards in `LocalStorage` are
False, and only those plain branches are embedded.
-/

namespace AgentEcs

/-- Identity of a Python component class (a stand-in for the class object). -/
abbrev CompType := Nat

/-- A component instance: its runtime class and an opaque payload standing
for the user-defined field values. -/
structure Component where
  ctype : CompType
  data : Int
deriving DecidableEq, Repr

/-- `wrapper.get_type` for unwrapped components: `type(component)`. -/
def get_type (c : Component) : CompType := c.ctype

/-- `identity/models.EntityId`: `(shard, index, generation)`.  `index` is an
`Int` because `ScopedAccess.spawn` hands out provisional ids with a negative
index. -/
structure EntityId where
  shard : Int
  index : Int
  generation : Int
deriving DecidableEq, Repr

/-- The Python exception classes that the embedded code can raise. -/
inductive PyErr where
  | accessViolation
  | keyError
  | valueError
  | typeError
deriving DecidableEq, Repr

section Dict

variable {α β : Type} [DecidableEq α]

/-- Lookup in a Python dict: `d.get(k)`. -/
def dget? : List (α × β) → α → Option β
  | [], _ => none
  | (k, v) :: rest, a => if k = a then some v else dget? rest a

/-- Assignment `d[k] = v` on a Python dict: an existing key keeps its
insertion position and gets the new value, a new key is appended. -/
def dset : List (α × β) → α → β → List (α × β)
  | [], a, b => [(a, b)]
  | (k, v) :: rest, a, b =>
      if k = a then (k, b) :: rest else (k, v) :: dset rest a b

/-- Deletion `del d[k]` on a Python dict. -/
def derase : List (α × β) → α → List (α × β)
  | [], _ => []
  | (k, v) :: rest, a => if k = a then rest else (k, v) :: derase rest a

end Dict

/-! ## Entity allocator (`storage/allocator.py`) -/

/-- `SystemEntity._RESERVED_COUNT`: the first 1000 indices are reserved. -/
def RESERVED_COUNT : Int := 1000

/-- `EntityAllocator`: per-shard `next_index`, free list and generation map.
The Python free list is a stack used only through `append` and `pop()`; the
top of that stack is the head of `free_list` here. -/
structure EntityAllocator where
  shard : Int
  next_index : Int
  free_list : List (Int × Int)
  generations : List (Int × Int)
deriving DecidableEq, Repr

def EntityAllocator.init (shard : Int) : EntityAllocator :=
  { shard := shard
    next_index := RESERVED_COUNT
    free_list := []
    generations := [] }

/-- `EntityAllocator.allocate`: pop the free list (keeping the stored
generation) or issue a fresh index at generation 0. -/
def EntityAllocator.allocate (a : EntityAllocator) : EntityId × EntityAllocator :=
  match a.free_list with
  | (index, gen) :: rest =>
      (⟨a.shard, index, gen⟩, { a with free_list := rest })
  | [] =>
      (⟨a.shard, a.next_index, 0⟩,
       { a with
          next_index := a.next_index + 1
          generations := dset a.generations a.next_index 0 })

/-- `EntityAllocator.deallocate`: reject foreign shards, bump the stored
generation and push `(index, generation + 1)`. -/
def EntityAllocator.deallocate (a : EntityAllocator) (e : EntityId) :
    Except PyErr EntityAllocator :=
  if e.shard ≠ a.shard then Except.error PyErr.valueError
  else Except.ok
    { a with
        generations := dset a.generations e.index (e.generation + 1)
        free_list := (e.index, e.generation + 1) :: a.free_list }

/-- `EntityAllocator.is_alive`: `self._generations.get(entity.index, -1) ==
entity.generation`, false for foreign shards. -/
def EntityAllocator.is_alive (a : EntityAllocator) (e : EntityId) : Bool :=
  if e.shard ≠ a.shard then false
  else decide ((dget? a.generations e.index).getD (-1) = e.generation)

/-- Free-list entries carry the generation currently stored for their index.
This holds for every allocator reachable through `allocate`/`deallocate` of
live entities and is the precondition under which a popped slot is alive. -/
def EntityAllocator.Inv (a : EntityAllocator) : Prop :=
  ∀ p ∈ a.free_list, dget? a.generations p.1 = some p.2

/-! ## SystemResult (`world/result.py`): the ordered mutation log -/

/-- `result.OpKind`. -/
inductive OpKind where
  | update
  | insert
  | remove
  | spawn
  | destroy
deriving DecidableEq, Repr

/-- `result.MutationOp`: one recorded mutation, with optional payload fields
exactly as in the frozen dataclass. -/
structure MutationOp where
  op_seq : Nat
  kind : OpKind
  entity : Option EntityId := none
  component : Option Component := none
  component_type : Option CompType := none
  spawn_components : Option (List Component) := none
deriving DecidableEq, Repr

/-- `result.SystemResult`: the append-only op log.  The per-kind index lists
(`_update_indices`, ...) of the source enumerate exactly the positions of
the ops of that kind, in order; the projections below therefore filter
`ops` by kind instead of carrying the index lists. -/
structure SystemResult where
  ops : List MutationOp := []
  next_op_seq : Nat := 0
deriving DecidableEq, Repr

def SystemResult.record_update (r : SystemResult) (e : EntityId) (c : Component) :
    SystemResult :=
  { ops := r.ops ++
      [{ op_seq := r.next_op_seq, kind := OpKind.update, entity := some e,
         component := some c }]
    next_op_seq := r.next_op_seq + 1 }

def SystemResult.record_insert (r : SystemResult) (e : EntityId) (c : Component) :
    SystemResult :=
  { ops := r.ops ++
      [{ op_seq := r.next_op_seq, kind := OpKind.insert, entity := some e,
         component := some c }]
    next_op_seq := r.next_op_seq + 1 }

def SystemResult.record_remove (r : SystemResult) (e : EntityId) (t : CompType) :
    SystemResult :=
  { ops := r.ops ++
      [{ op_seq := r.next_op_seq, kind := OpKind.remove, entity := some e,
         component_type := some t }]
    next_op_seq := r.next_op_seq + 1 }

def SystemResult.record_spawn (r : SystemResult) (cs : List Component) :
    SystemResult :=
  { ops := r.ops ++
      [{ op_seq := r.next_op_seq, kind := OpKind.spawn, spawn_components := some cs }]
    next_op_seq := r.next_op_seq + 1 }

def SystemResult.record_destroy (r : SystemResult) (e : EntityId) : SystemResult :=
  { ops := r.ops ++
      [{ op_seq := r.next_op_seq, kind := OpKind.destroy, entity := some e }]
    next_op_seq := r.next_op_seq + 1 }

/-- The step of the `SystemResult.updates` projection for a single op:
`result[op.entity] = result.get(op.entity, \x7b\x7d)` followed by
`result[op.entity][get_type(op.component)] = op.component`. -/
def updatesStep (acc : List (EntityId × List (CompType × Component))) (op : MutationOp) :
    List (EntityId × List (CompType × Component)) :=
  match op.kind, op.entity, op.component with
  | OpKind.update, some e, some c =>
      dset acc e (dset ((dget? acc e).getD []) (get_type c) c)
  | _, _, _ => acc

/-- `SystemResult.updates` (a `@property`): rebuilds, on every access, the
`\x7bentity: \x7bType: component\x7d\x7d` view from the op log (later ops win per key). -/
def SystemResult.updates (r : SystemResult) : List (EntityId × List (CompType × Component)) :=
  r.ops.foldl updatesStep []

/-- Step of the `SystemResult.inserts` projection. -/
def insertsStep (acc : List (EntityId × List Component)) (op : MutationOp) :
    List (EntityId × List Component) :=
  match op.kind, op.entity, op.component with
  | OpKind.insert, some e, some c => dset acc e (((dget? acc e).getD []) ++ [c])
  | _, _, _ => acc

/-- `SystemResult.inserts` (a `@property`): `\x7bentity: [components]\x7d`. -/
def SystemResult.inserts (r : SystemResult) : List (EntityId × List Component) :=
  r.ops.foldl insertsStep []

/-- Step of the `SystemResult.removes` projection. -/
def removesStep (acc : List (EntityId × List CompType)) (op : MutationOp) :
    List (EntityId × List CompType) :=
  match op.kind, op.entity, op.component_type with
  | OpKind.remove, some e, some t => dset acc e (((dget? acc e).getD []) ++ [t])
  | _, _, _ => acc

/-- `SystemResult.removes` (a `@property`): `\x7bentity: [component types]\x7d`. -/
def SystemResult.removes (r : SystemResult) : List (EntityId × List CompType) :=
  r.ops.foldl removesStep []

/-- `SystemResult.spawns` (a `@property`): the recorded component tuples. -/
def SystemResult.spawns (r : SystemResult) : List (List Component) :=
  r.ops.filterMap fun op =>
    if op.kind = OpKind.spawn then op.spawn_components else none

/-- `SystemResult.destroys` (a `@property`): the recorded destroy targets. -/
def SystemResult.destroys (r : SystemResult) : List EntityId :=
  r.ops.filterMap fun op =>
    if op.kind = OpKind.destroy then op.entity else none

/-- `SystemResult.is_empty`. -/
def SystemResult.is_empty (r : SystemResult) : Bool := r.ops.isEmpty

/-- `SystemResult.merge`: re-record every op of `other` after `self`'s ops,
preserving their relative order. -/
def SystemResult.merge (r other : SystemResult) : SystemResult :=
  other.ops.foldl
    (fun acc op =>
      match op.kind with
      | OpKind.update =>
          match op.entity, op.component with
          | some e, some c => acc.record_update e c
          | _, _ => acc
      | OpKind.insert =>
          match op.entity, op.component with
          | some e, some c => acc.record_insert e c
          | _, _ => acc
      | OpKind.remove =>
          match op.entity, op.component_type with
          | some e, some t => acc.record_remove e t
          | _, _ => acc
      | OpKind.spawn =>
          match op.spawn_components with
          | some cs => acc.record_spawn cs
          | _ => acc
      | OpKind.destroy =>
          match op.entity with
          | some e => acc.record_destroy e
          | _ => acc)
    r

/-! ## Query and access-pattern algebra (`core/query/`) -/

/-- `query/models.Query`: required and excluded component types. -/
structure Query where
  required : List CompType
  excluded : List CompType
deriving DecidableEq, Repr

/-- `Query.types`: the required types only. -/
def Query.types (q : Query) : List CompType := q.required

/-- `Query.matches_archetype`: every required type present, no excluded type
present.  Python `in` on the archetype set is membership. -/
def Query.matches_archetype (q : Query) (has : List CompType) : Bool :=
  (q.required.all fun t => decide (t ∈ has)) &&
  (q.excluded.all fun t => decide (t ∉ has))

/-- `query/operations.queries_disjoint`: one query requires a type the other
excludes. -/
def queries_disjoint (q1 q2 : Query) : Bool :=
  (q1.required.any fun t => decide (t ∈ q2.excluded)) ||
  (q2.required.any fun t => decide (t ∈ q1.excluded))

/-- `query/models.AccessPattern = AllAccess | TypeAccess | QueryAccess |
NoAccess`.  `TypeAccess` stores a frozenset; here a list read only through
membership. -/
inductive AccessPattern where
  | allAccess
  | noAccess
  | typeAccess (types : List CompType)
  | queryAccess (queries : List Query)
deriving DecidableEq, Repr

/-- `QueryAccess.types`: the union of the queries' required sets (a list
read only through membership). -/
def queryAccessTypes (qs : List Query) : List CompType :=
  qs.foldl (fun acc q => acc ++ q.required) []

/-! ## System descriptor (`core/system/models.py`) -/

inductive SystemMode where
  | interactive
  | pure
  | readonly
deriving DecidableEq, Repr

/-- `SystemDescriptor` restricted to the fields the access checks read
(`name`, `run`, `is_async`, `frequency`, `phase` do not influence them). -/
structure SystemDescriptor where
  reads : AccessPattern
  writes : AccessPattern
  mode : SystemMode
  runs_alone : Bool := false
deriving DecidableEq, Repr

/-- `SystemDescriptor._pattern_allows`. -/
def pattern_allows (p : AccessPattern) (t : CompType) : Bool :=
  match p with
  | AccessPattern.allAccess => true
  | AccessPattern.noAccess => false
  | AccessPattern.typeAccess ts => decide (t ∈ ts)
  | AccessPattern.queryAccess qs => decide (t ∈ queryAccessTypes qs)

/-- `SystemDescriptor.can_read_type`: write access implies read access. -/
def SystemDescriptor.can_read_type (d : SystemDescriptor) (t : CompType) : Bool :=
  pattern_allows d.reads t || pattern_allows d.writes t

/-- `SystemDescriptor.can_write_type`. -/
def SystemDescriptor.can_write_type (d : SystemDescriptor) (t : CompType) : Bool :=
  pattern_allows d.writes t

/-- `SystemDescriptor.is_dev_mode`. -/
def SystemDescriptor.is_dev_mode (d : SystemDescriptor) : Bool := d.runs_alone

/-! ## ScopedAccess write path (`world/access.py`) -/

/-- `ScopedAccess._check_writable`: dev mode bypasses, READONLY always
raises, otherwise the write pattern decides.  The source raises
`AccessViolationError` with two different messages in the last two cases;
both are the same exception class. -/
def check_writable (d : SystemDescriptor) (t : CompType) : Except PyErr Unit :=
  if d.is_dev_mode then Except.ok ()
  else if d.mode = SystemMode.readonly then Except.error PyErr.accessViolation
  else if d.can_write_type t then Except.ok ()
  else Except.error PyErr.accessViolation

namespace ScopedAccess

/-- `ScopedAccess.update`.  After `_check_writable`, the source executes
`self._buffer.updates[entity] = \x7b\x7d` and then
`self._buffer.updates[entity][comp_type] = component`.  `SystemResult.updates`
is a property that rebuilds a fresh dict on every access, so the first
assignment mutates a temporary; the second re-evaluates the projection and
indexes it, raising `KeyError` unless an UPDATE op for `entity` is already
recorded in the log — and when one is, the assignment again lands in a
temporary, leaving the buffer unchanged. -/
def update (d : SystemDescriptor) (buf : SystemResult) (e : EntityId) (c : Component) :
    Except PyErr SystemResult := do
  let _ ← check_writable d (get_type c)
  match dget? buf.updates e with
  | some _ => Except.ok buf
  | none => Except.error PyErr.keyError

/-- `ScopedAccess.insert`: same shape as `update` over the `inserts`
projection property. -/
def insert (d : SystemDescriptor) (buf : SystemResult) (e : EntityId) (c : Component) :
    Except PyErr SystemResult := do
  let _ ← check_writable d (get_type c)
  match dget? buf.inserts e with
  | some _ => Except.ok buf
  | none => Except.error PyErr.keyError

/-- `ScopedAccess.remove`: same shape as `update` over the `removes`
projection property. -/
def remove (d : SystemDescriptor) (buf : SystemResult) (e : EntityId) (t : CompType) :
    Except PyErr SystemResult := do
  let _ ← check_writable d t
  match dget? buf.removes e with
  | some _ => Except.ok buf
  | none => Except.error PyErr.keyError

/-- `ScopedAccess.spawn`: checks writability of every component (the
duplicate-type path only emits a warning), then appends to the temporary
list built by the `spawns` projection property — the append is lost — and
returns `EntityId(shard=0, index=-len(self._buffer.spawns), generation=0)`
computed from a fresh projection of the unchanged buffer. -/
def spawn (d : SystemDescriptor) (buf : SystemResult) (components : List Component) :
    Except PyErr (EntityId × SystemResult) := do
  for c in components do
    let _ ← check_writable d (get_type c)
  Except.ok (⟨0, -(buf.spawns.length : Int), 0⟩, buf)

/-- `ScopedAccess.destroy`: no writability or mode check at all;
`self._buffer.destroys.append(entity)` appends to the temporary list built
by the `destroys` projection property.  It never raises. -/
def destroy (d : SystemDescriptor) (buf : SystemResult) (e : EntityId) :
    Except PyErr SystemResult :=
  Except.ok buf

end ScopedAccess

/-! ## Result validation (`world/result.py::validate_result_access`) -/

/-- The `writable` frozenset computed by `validate_result_access` for the
non-`AllAccess` patterns. -/
def writableTypes : AccessPattern → List CompType
  | AccessPattern.allAccess => []
  | AccessPattern.noAccess => []
  | AccessPattern.typeAccess ts => ts
  | AccessPattern.queryAccess qs => queryAccessTypes qs

/-- `validate_result_access`: returns immediately for `AllAccess`, then
walks the `updates` projection and the `inserts` projection, raising
`AccessViolationError` at the first component type outside `writable`.
`removes`, `spawns` and `destroys` are never examined.  The source raises at
the first offender; since every offender raises the same exception class,
ok-versus-error is the conjunction below. -/
def validate_result_access (result : SystemResult) (writes : AccessPattern) :
    Except PyErr Unit :=
  match writes with
  | AccessPattern.allAccess => Except.ok ()
  | _ =>
      let writable := writableTypes writes
      if (result.updates.all fun p => p.2.all fun q => decide (q.1 ∈ writable)) &&
         (result.inserts.all fun p => p.2.all fun c => decide (get_type c ∈ writable))
      then Except.ok ()
      else Except.error PyErr.accessViolation

/-! ## Local storage (`storage/local.py`), plain-component fragment -/

/-- `LocalStorage`: `_components[entity][component_type] = instance`, plus
the allocator.  The `_shared_*` tables stay empty for plain dataclass
components and are omitted. -/
structure LocalStorage where
  shard : Int
  allocator : EntityAllocator
  components : List (EntityId × List (CompType × Component))
deriving DecidableEq, Repr

def LocalStorage.init (shard : Int) : LocalStorage :=
  { shard := shard
    allocator := EntityAllocator.init shard
    components := [] }

/-- `LocalStorage.create_entity`. -/
def LocalStorage.create_entity (s : LocalStorage) : EntityId × LocalStorage :=
  let p := s.allocator.allocate
  (p.1, { s with allocator := p.2, components := dset s.components p.1 [] })

/-- `LocalStorage.destroy_entity`: delete the component row, then
deallocate.  On a foreign-shard entity Python deletes the row and then
raises from `deallocate`; no claim observes that half-mutated state, so the
error is returned without it. -/
def LocalStorage.destroy_entity (s : LocalStorage) (e : EntityId) :
    Except PyErr LocalStorage :=
  if (dget? s.components e).isSome then do
    let alloc' ← s.allocator.deallocate e
    Except.ok { s with components := derase s.components e, allocator := alloc' }
  else Except.ok s

/-- `LocalStorage.entity_exists`: row present and allocator says alive. -/
def LocalStorage.entity_exists (s : LocalStorage) (e : EntityId) : Bool :=
  (dget? s.components e).isSome && s.allocator.is_alive e

/-- `LocalStorage.all_entities`: rows whose entity the allocator says is
alive. -/
def LocalStorage.all_entities (s : LocalStorage) : List EntityId :=
  (s.components.filter fun p => s.allocator.is_alive p.1).map Prod.fst

/-- `LocalStorage.get_component` (`copy=True` deep-copies; on immutable
model values the copy is the identity).  `_get_component_raw` without its
shared-reference branch. -/
def LocalStorage.get_component (s : LocalStorage) (e : EntityId) (t : CompType) :
    Option Component :=
  match dget? s.components e with
  | none => none
  | some m => dget? m t

/-- `LocalStorage.set_component`, plain branch:
`self._components[entity][type(component)] = component`, creating the row
if missing. -/
def LocalStorage.set_component (s : LocalStorage) (e : EntityId) (c : Component) :
    LocalStorage :=
  let comps := if (dget? s.components e).isSome then s.components
               else dset s.components e []
  { s with components := dset comps e (dset ((dget? comps e).getD []) c.ctype c) }

/-- `LocalStorage.remove_component`, plain branch: returns whether a value
was removed. -/
def LocalStorage.remove_component (s : LocalStorage) (e : EntityId) (t : CompType) :
    LocalStorage × Bool :=
  match dget? s.components e with
  | none => (s, false)
  | some m =>
      if (dget? m t).isSome then
        ({ s with components := dset s.components e (derase m t) }, true)
      else (s, false)

/-- `LocalStorage.has_component`, plain branch. -/
def LocalStorage.has_component (s : LocalStorage) (e : EntityId) (t : CompType) : Bool :=
  match dget? s.components e with
  | none => false
  | some m => (dget? m t).isSome

/-- `LocalStorage.get_component_types`, plain branch: the row's keys (the
source returns them as a frozenset, read only through membership). -/
def LocalStorage.get_component_types (s : LocalStorage) (e : EntityId) : List CompType :=
  ((dget? s.components e).getD []).map Prod.fst

/-- The `# Updates` loop of `apply_updates`: `for entity, components in
updates.items(): for _, comp in components.items(): set_component`. -/
def setUpdatesPhase (updates : List (EntityId × List (CompType × Component)))
    (s : LocalStorage) : LocalStorage :=
  updates.foldl (fun acc p => p.2.foldl (fun acc2 q => acc2.set_component p.1 q.2) acc) s

/-- The `# Inserts` loop of `apply_updates`. -/
def setInsertsPhase (inserts : List (EntityId × List Component))
    (s : LocalStorage) : LocalStorage :=
  inserts.foldl (fun acc p => p.2.foldl (fun acc2 c => acc2.set_component p.1 c) acc) s

/-- The inner loop of the `# Removes` phase for one entity. -/
def removeEntityTypes (e : EntityId) (ts : List CompType) (s : LocalStorage) :
    LocalStorage :=
  ts.foldl (fun acc t => (acc.remove_component e t).1) s

/-- The `# Removes` loop of `apply_updates`. -/
def removesPhase (removes : List (EntityId × List CompType)) (s : LocalStorage) :
    LocalStorage :=
  removes.foldl (fun acc p => removeEntityTypes p.1 p.2 acc) s

/-- The `# Destroys` loop of `apply_updates`. -/
def destroysPhase (destroys : List EntityId) (s : LocalStorage) :
    Except PyErr LocalStorage :=
  destroys.foldlM (fun acc e => acc.destroy_entity e) s

/-- `LocalStorage.apply_updates`: all updates, then all inserts, then all
removes, then all destroys — grouped by kind, in the order of the projection
dicts (`new_entities` is always empty here and omitted). -/
def LocalStorage.apply_updates (s : LocalStorage)
    (updates : List (EntityId × List (CompType × Component)))
    (inserts : List (EntityId × List Component))
    (removes : List (EntityId × List CompType))
    (destroys : List EntityId) : Except PyErr LocalStorage := do
  let s1 := setUpdatesPhase updates s
  let s2 := setInsertsPhase inserts s1
  let s3 := removesPhase removes s2
  let s4 ← destroysPhase destroys s3
  Except.ok s4

/-- Snapshot payload (`LocalStorage.snapshot` pickles `shard`, `components`
and `allocator_next`; the `shared_*` tables are empty in the plain
fragment). -/
structure StorageSnapshot where
  shard : Int
  components : List (EntityId × List (CompType × Component))
  allocator_next : Int
deriving DecidableEq, Repr

/-- `LocalStorage.snapshot`. -/
def LocalStorage.snapshot (s : LocalStorage) : StorageSnapshot :=
  { shard := s.shard
    components := s.components
    allocator_next := s.allocator.next_index }

/-- `LocalStorage.restore`: assigns `shard`, `components` and
`self._allocator._next_index` on the receiving storage.  The receiving
allocator's `_generations` and `_free_list` are left as they were. -/
def LocalStorage.restore (s : LocalStorage) (snap : StorageSnapshot) : LocalStorage :=
  { shard := snap.shard
    components := snap.components
    allocator := { s.allocator with next_index := snap.allocator_next } }

/-! ## World commit and merge (`world/world.py`) -/

namespace World

/-- `World.spawn`: create the entity, then set each component (the
duplicate-type path only emits a warning). -/
def spawn (s : LocalStorage) (components : List Component) : EntityId × LocalStorage :=
  let p := s.create_entity
  (p.1, components.foldl (fun st c => st.set_component p.1 c) p.2)

/-- The spawn loop of `World.apply_result_async`: create a real entity for
each recorded spawn and set its components. -/
def spawnPhase (s : LocalStorage) (spawns : List (List Component)) :
    List EntityId × LocalStorage :=
  spawns.foldl
    (fun acc comps =>
      let p := acc.2.create_entity
      (acc.1 ++ [p.1], comps.foldl (fun st c => st.set_component p.1 c) p.2))
    ([], s)

/-- `World.apply_result_async`: handle spawns first (creating real
entities), then delegate the projections to `LocalStorage.apply_updates`. -/
def apply_result (s : LocalStorage) (result : SystemResult) :
    Except PyErr (List EntityId × LocalStorage) := do
  let spawned := spawnPhase s result.spawns
  let s2 ← spawned.2.apply_updates result.updates result.inserts
      result.removes result.destroys
  Except.ok (spawned.1, s2)

end World

/-! ## Component merge protocol (`core/component/`) -/

/-- Which component classes implement `Mergeable` (`isinstance(c, Mergeable)`
checks the class for `__merge__`), and what `__merge__` computes on the
payloads.  `__merge__` returns `Self`, so the class is preserved. -/
structure MergeEnv where
  mergeable : CompType → Bool
  mergeData : CompType → Int → Int → Int

/-- `operations.merge_using_protocol` in the guarded position inside
`World.merge_entities` (the `isinstance` re-check cannot fail there):
`comp1.__merge__(comp2)`. -/
def merge_using_protocol (env : MergeEnv) (c1 c2 : Component) : Component :=
  ⟨c1.ctype, env.mergeData c1.ctype c1.data c2.data⟩

/-- `models.NonMergeableHandling`. -/
inductive NonMergeableHandling where
  | error
  | first
  | second
  | skip
deriving DecidableEq, Repr

/-- `get_strategy()` composed with the strategy call: `merge_error` raises
`TypeError`, `merge_take_first` keeps `comp1`, `merge_take_second` keeps
`comp2`, `merge_skip` yields `None`. -/
def nonMergeableApply (h : NonMergeableHandling) (c1 c2 : Component) :
    Except PyErr (Option Component) :=
  match h with
  | NonMergeableHandling.error => Except.error PyErr.typeError
  | NonMergeableHandling.first => Except.ok (some c1)
  | NonMergeableHandling.second => Except.ok (some c2)
  | NonMergeableHandling.skip => Except.ok none

/-- `World.merge_entities(entity1, entity2, on_non_mergeable=FIRST)`.  The
source iterates `types1 | types2` (a frozenset, unspecified order); each
type's contribution is independent of the others, and this embedding
enumerates `types1` then the new types of `types2`. -/
def World.merge_entities (env : MergeEnv) (s : LocalStorage) (e1 e2 : EntityId)
    (on_non_mergeable : NonMergeableHandling := NonMergeableHandling.first) :
    Except PyErr (EntityId × LocalStorage) := do
  if !s.entity_exists e1 then Except.error PyErr.valueError
  else if !s.entity_exists e2 then Except.error PyErr.valueError
  else
    let types1 := s.get_component_types e1
    let types2 := s.get_component_types e2
    let all_types := types1 ++ types2.filter fun t => decide (t ∉ types1)
    let merged ← all_types.foldlM
      (fun (acc : List Component) t => do
        let comp1 := s.get_component e1 t
        let comp2 := s.get_component e2 t
        match comp1, comp2 with
        | some c1, some c2 =>
            if env.mergeable c1.ctype then
              Except.ok (acc ++ [merge_using_protocol env c1 c2])
            else do
              let m ← nonMergeableApply on_non_mergeable c1 c2
              match m with
              | some c => Except.ok (acc ++ [c])
              | none => Except.ok acc
        | some c1, none => Except.ok (acc ++ [c1])
        | none, some c2 => Except.ok (acc ++ [c2])
        | none, none => Except.ok acc)
      []
    let p := World.spawn s merged
    let s3 ← p.2.destroy_entity e1
    let s4 ← s3.destroy_entity e2
    Except.ok (p.1, s4)

/-! ## Access-spec normalization (`core/query/operations.py`) -/

/-- An element of a Python tuple passed as an access spec: a component type
or a `Query`. -/
inductive SpecElem where
  | ty (t : CompType)
  | q (q : Query)
deriving DecidableEq, Repr

/-- The inputs `normalize_access` can receive: `None`, an `AccessPattern`
instance (of any of the four classes), a bare `Query`, or a tuple. -/
inductive AccessSpec where
  | noneSpec
  | patternSpec (p : AccessPattern)
  | querySpec (q : Query)
  | tupleSpec (elems : List SpecElem)
deriving DecidableEq, Repr

/-- `normalize_access`: `None → AllAccess`; `AllAccess`/`NoAccess` pass
through; a `Query` becomes a one-query `QueryAccess`; a tuple of types
becomes `TypeAccess`, of queries `QueryAccess`, empty `NoAccess`.  A
`TypeAccess` or `QueryAccess` instance matches none of the `isinstance`
tests and falls through to `raise TypeError`, as does a mixed tuple. -/
def normalize_access (spec : AccessSpec) : Except PyErr AccessPattern :=
  match spec with
  | AccessSpec.noneSpec => Except.ok AccessPattern.allAccess
  | AccessSpec.patternSpec p =>
      match p with
      | AccessPattern.allAccess => Except.ok AccessPattern.allAccess
      | AccessPattern.noAccess => Except.ok AccessPattern.noAccess
      | _ => Except.error PyErr.typeError
  | AccessSpec.querySpec q => Except.ok (AccessPattern.queryAccess [q])
  | AccessSpec.tupleSpec elems =>
      if elems.isEmpty then Except.ok AccessPattern.noAccess
      else if elems.all fun el => match el with | SpecElem.ty _ => true | _ => false then
        Except.ok (AccessPattern.typeAccess
          (elems.filterMap fun el => match el with | SpecElem.ty t => some t | _ => none))
      else if elems.all fun el => match el with | SpecElem.q _ => true | _ => false then
        Except.ok (AccessPattern.queryAccess
          (elems.filterMap fun el => match el with | SpecElem.q qq => some qq | _ => none))
      else Except.error PyErr.typeError

/-! ## System-return normalization (`world/result.py::normalize_result`) -/

/-- A value in the dict shorthand: either itself a dict
`\x7bType: component\x7d`, or a bare component. -/
inductive DictValue where
  | comps (m : List (CompType × Component))
  | single (c : Component)
deriving DecidableEq, Repr

/-- The recognized system return shapes.  The `TypeError` branches
(non-`EntityId` dict keys, malformed list items, unrecognized top-level
type) are unrepresentable in this typed model and in-scope inputs never
reach them. -/
inductive SystemReturn where
  | noneRet
  | resultRet (r : SystemResult)
  | dictRet (entries : List (EntityId × DictValue))
  | listRet (items : List (EntityId × Component))
deriving DecidableEq, Repr

/-- `normalize_result`.  In the dict-of-dicts branch the source iterates
`for _, comp in value.items()` and calls `record_update(entity, comp)`: the
component-type key of the inner dict is discarded. -/
def normalize_result (raw : SystemReturn) : SystemResult :=
  match raw with
  | SystemReturn.noneRet => {}
  | SystemReturn.resultRet r => r
  | SystemReturn.dictRet entries =>
      entries.foldl
        (fun acc p =>
          match p.2 with
          | DictValue.comps m => m.foldl (fun acc2 q => acc2.record_update p.1 q.2) acc
          | DictValue.single c => acc.record_update p.1 c)
        {}
  | SystemReturn.listRet items =>
      items.foldl (fun acc p => acc.record_update p.1 p.2) {}

/-! ## Wellformedness and concrete fixtures -/

/-- Well-formedness every Python `LocalStorage` enjoys: `_components` is a
dict (entity keys pairwise distinct) of dicts (type keys pairwise
distinct). -/
def StorageOk (s : LocalStorage) : Prop :=
  (s.components.map Prod.fst).Nodup ∧
  ∀ p ∈ s.components, ((p.2.map Prod.fst).Nodup)

/-- An unrestricted INTERACTIVE descriptor (as produced by `@system()` with
no arguments). -/
def openDescriptor : SystemDescriptor :=
  { reads := AccessPattern.allAccess
    writes := AccessPattern.allAccess
    mode := SystemMode.interactive
    runs_alone := false }

/-- A READONLY descriptor (as produced by `@system.readonly()`). -/
def readonlyDescriptor : SystemDescriptor :=
  { reads := AccessPattern.allAccess
    writes := AccessPattern.noAccess
    mode := SystemMode.readonly
    runs_alone := false }

/-- A fresh storage holding one entity `(0, 1000, 0)` carrying component
class 5 with payload 10 (a `Count(10)`-style fixture). -/
def removeThenSetStorage : LocalStorage :=
  let p := (LocalStorage.init 0).create_entity
  p.2.set_component p.1 ⟨5, 10⟩

/-- A buffer recording `remove(e, T)` and then `update(e, T(99))` on the
same `(entity, type)` pair, in that order. -/
def removeThenSetBuffer : SystemResult :=
  (SystemResult.record_remove {} ⟨0, 1000, 0⟩ 5).record_update ⟨0, 1000, 0⟩ ⟨5, 99⟩

/-- The storage `apply_result` commits for the fixture above. -/
def removeThenSetCommitted : LocalStorage :=
  { shard := 0
    allocator :=
      { shard := 0, next_index := 1001, free_list := [], generations := [(1000, 0)] }
    components := [(⟨0, 1000, 0⟩, [])] }

/-- A component universe in which no class implements `Mergeable` (such as
the repository's `PlainTag`). -/
def plainEnv : MergeEnv :=
  { mergeable := fun _ => false
    mergeData := fun _ a _ => a }

/-- A world holding entity `(0,1000,0)` with `PlainTag("alice")` (class 1,
payload 0) and entity `(0,1001,0)` with `PlainTag("bob")` (payload 1). -/
def tagStorage : LocalStorage :=
  let p1 := (LocalStorage.init 0).create_entity
  let s1 := p1.2.set_component p1.1 ⟨1, 0⟩
  let p2 := s1.create_entity
  p2.2.set_component p2.1 ⟨1, 1⟩

/-- A result buffer whose only ops are a remove, a spawn and a destroy —
none of them inside any declared write pattern. -/
def nonWritePatternOps : SystemResult :=
  ((SystemResult.record_remove {} ⟨0, 1000, 0⟩ 5).record_spawn [⟨5, 0⟩]).record_destroy
    ⟨0, 1001, 0⟩

/-- A fresh storage with one created entity, and its snapshot restored into
a brand-new storage (as the repository's snapshot test does). -/
def snapshotSourceStorage : LocalStorage :=
  ((LocalStorage.init 0).create_entity).2

/-! ## Auxiliary dictionary lemmas

Python dicts never hold a key twice; `RowsOk` states this for the inner
component rows of a storage, and is preserved by every storage operation. -/

section DictLemmas

variable {α β : Type} [DecidableEq α]

theorem dget?_dset_self (m : List (α × β)) (k : α) (v : β) :
    dget? (dset m k v) k = some v := by
  induction m with
  | nil => simp [dset, dget?]
  | cons p rest ih =>
      obtain ⟨k', v'⟩ := p
      by_cases hp : k' = k
      · subst hp; simp [dset, dget?]
      · simp [dset, dget?, hp, ih]

theorem dget?_dset_ne (m : List (α × β)) (k a : α) (v : β) (h : a ≠ k) :
    dget? (dset m k v) a = dget? m a := by
  have hka : ¬(k = a) := fun hh => h hh.symm
  induction m with
  | nil => simp [dset, dget?, hka]
  | cons p rest ih =>
      obtain ⟨k', v'⟩ := p
      by_cases hp : k' = k
      · subst hp; simp [dset, dget?, hka]
      · simp [dset, dget?, hp, ih]

theorem dget?_derase_ne (m : List (α × β)) (k a : α) (h : a ≠ k) :
    dget? (derase m k) a = dget? m a := by
  have hka : ¬(k = a) := fun hh => h hh.symm
  induction m with
  | nil => simp [derase]
  | cons p rest ih =>
      obtain ⟨k', v'⟩ := p
      by_cases hp : k' = k
      · subst hp; simp [derase, dget?, hka]
      · simp [derase, dget?, hp, ih]

theorem dget?_derase_none (m : List (α × β)) (k a : α) (h : dget? m a = none) :
    dget? (derase m k) a = none := by
  induction m with
  | nil => simp [derase, dget?]
  | cons p rest ih =>
      obtain ⟨k', v'⟩ := p
      by_cases hpa : k' = a
      · simp [dget?, hpa] at h
      · have h' : dget? rest a = none := by simpa [dget?, hpa] using h
        by_cases hp : k' = k
        · subst hp; simpa [derase] using h'
        · simp [derase, dget?, hp, hpa, ih h']

theorem mem_dset {m : List (α × β)} {k : α} {v : β} {p : α × β}
    (h : p ∈ dset m k v) : p ∈ m ∨ p = (k, v) := by
  induction m with
  | nil =>
      rw [show dset ([] : List (α × β)) k v = [(k, v)] from rfl] at h
      exact Or.inr (by simpa using h)
  | cons q rest ih =>
      obtain ⟨k', v'⟩ := q
      by_cases hk : k' = k
      · rw [show dset ((k', v') :: rest) k v = (k', v) :: rest from by
            simp [dset, hk]] at h
        rcases List.mem_cons.mp h with h | h
        · exact Or.inr (by simp [h, hk])
        · exact Or.inl (List.mem_cons_of_mem _ h)
      · rw [show dset ((k', v') :: rest) k v = (k', v') :: dset rest k v from by
            simp [dset, hk]] at h
        rcases List.mem_cons.mp h with h | h
        · exact Or.inl (by simp [h])
        · rcases ih h with h' | h'
          · exact Or.inl (List.mem_cons_of_mem _ h')
          · exact Or.inr h'

theorem dget?_mem {m : List (α × β)} {a : α} {b : β} (h : dget? m a = some b) :
    (a, b) ∈ m := by
  induction m with
  | nil => simp [dget?] at h
  | cons q rest ih =>
      obtain ⟨k', v'⟩ := q
      by_cases hk : k' = a
      · rw [show dget? ((k', v') :: rest) a = some v' from by simp [dget?, hk]] at h
        have hb : v' = b := by simpa using h
        subst hb
        subst hk
        exact List.mem_cons_self _ _
      · rw [show dget? ((k', v') :: rest) a = dget? rest a from by simp [dget?, hk]] at h
        exact List.mem_cons_of_mem _ (ih h)

theorem derase_sublist (m : List (α × β)) (k : α) : List.Sublist (derase m k) m := by
  induction m with
  | nil => simp [derase]
  | cons q rest ih =>
      obtain ⟨k', v'⟩ := q
      by_cases hk : k' = k
      · rw [show derase ((k', v') :: rest) k = rest from by simp [derase, hk]]
        exact List.Sublist.cons _ (List.Sublist.refl rest)
      · rw [show derase ((k', v') :: rest) k = (k', v') :: derase rest k from by
            simp [derase, hk]]
        exact List.Sublist.cons₂ _ ih

theorem mem_derase {m : List (α × β)} {k : α} {p : α × β} (h : p ∈ derase m k) :
    p ∈ m :=
  (derase_sublist m k).subset h

theorem dget?_eq_none_of_not_mem_keys {m : List (α × β)} {a : α}
    (h : a ∉ m.map Prod.fst) : dget? m a = none := by
  induction m with
  | nil => rfl
  | cons q rest ih =>
      have h1 : ¬(q.1 = a) := fun hh => h (by simp [← hh])
      have h2 : a ∉ rest.map Prod.fst := fun hh =>
        h (by rw [List.map_cons]; exact List.mem_cons_of_mem _ hh)
      obtain ⟨k', v'⟩ := q
      simpa [dget?, h1] using ih h2

theorem nodup_keys_dset {m : List (α × β)} (k : α) (v : β)
    (h : (m.map Prod.fst).Nodup) : ((dset m k v).map Prod.fst).Nodup := by
  induction m with
  | nil => simp [dset]
  | cons q rest ih =>
      obtain ⟨k', v'⟩ := q
      rw [List.map_cons] at h
      rcases List.nodup_cons.mp h with ⟨hknotin, hrest⟩
      by_cases hk : k' = k
      · rw [show dset ((k', v') :: rest) k v = (k', v) :: rest from by
            simp [dset, hk]]
        rw [List.map_cons, List.nodup_cons]
        exact ⟨hknotin, hrest⟩
      · rw [show dset ((k', v') :: rest) k v = (k', v') :: dset rest k v from by
            simp [dset, hk]]
        rw [List.map_cons, List.nodup_cons]
        refine ⟨?_, ih hrest⟩
        intro hmem
        rcases List.mem_map.mp hmem with ⟨p, hp, hp1⟩
        rcases mem_dset hp with h' | h'
        · exact hknotin (by rw [← hp1]; exact List.mem_map_of_mem Prod.fst h')
        · apply hk
          rw [h'] at hp1
          simpa using hp1.symm

theorem nodup_keys_derase {m : List (α × β)} (k : α)
    (h : (m.map Prod.fst).Nodup) : ((derase m k).map Prod.fst).Nodup :=
  List.Nodup.sublist (List.Sublist.map Prod.fst (derase_sublist m k)) h

theorem dget?_derase_self {m : List (α × β)} (k : α)
    (h : (m.map Prod.fst).Nodup) : dget? (derase m k) k = none := by
  induction m with
  | nil => rfl
  | cons q rest ih =>
      obtain ⟨k', v'⟩ := q
      rw [List.map_cons] at h
      rcases List.nodup_cons.mp h with ⟨hknotin, hrest⟩
      by_cases hk : k' = k
      · rw [show derase ((k', v') :: rest) k = rest from by simp [derase, hk]]
        subst hk
        exact dget?_eq_none_of_not_mem_keys hknotin
      · rw [show derase ((k', v') :: rest) k = (k', v') :: derase rest k from by
            simp [derase, hk]]
        simpa [dget?, hk] using ih hrest

end DictLemmas

theorem StorageOk_set (s : LocalStorage) (e : EntityId) (c : Component)
    (h : StorageOk s) : StorageOk (s.set_component e c) := by
  obtain ⟨houter, hrows⟩ := h
  cases hm : dget? s.components e with
  | some m =>
      have hcomps : (s.set_component e c).components =
          dset s.components e (dset m c.ctype c) := by
        simp [LocalStorage.set_component, hm]
      refine ⟨?_, ?_⟩
      · rw [hcomps]; exact nodup_keys_dset e _ houter
      · intro p hp
        rw [hcomps] at hp
        rcases mem_dset hp with h' | h'
        · exact hrows p h'
        · subst h'
          exact nodup_keys_dset c.ctype c (hrows (e, m) (dget?_mem hm))
  | none =>
      have hcomps : (s.set_component e c).components =
          dset (dset s.components e []) e [(c.ctype, c)] := by
        simp [LocalStorage.set_component, hm, dget?_dset_self, dset]
      refine ⟨?_, ?_⟩
      · rw [hcomps]; exact nodup_keys_dset e _ (nodup_keys_dset e _ houter)
      · intro p hp
        rw [hcomps] at hp
        rcases mem_dset hp with h' | h'
        · rcases mem_dset h' with h'' | h''
          · exact hrows p h''
          · subst h''; simp
        · subst h'; simp

theorem StorageOk_create (s : LocalStorage) (h : StorageOk s) :
    StorageOk s.create_entity.2 := by
  obtain ⟨houter, hrows⟩ := h
  refine ⟨?_, ?_⟩
  · simpa [LocalStorage.create_entity] using nodup_keys_dset s.allocator.allocate.1 [] houter
  · intro p hp
    simp only [LocalStorage.create_entity] at hp
    rcases mem_dset hp with h' | h'
    · exact hrows p h'
    · subst h'; simp

theorem StorageOk_remove (s : LocalStorage) (e : EntityId) (t : CompType)
    (h : StorageOk s) : StorageOk (s.remove_component e t).1 := by
  obtain ⟨houter, hrows⟩ := h
  unfold LocalStorage.remove_component
  cases hm : dget? s.components e with
  | none => exact ⟨houter, hrows⟩
  | some m =>
      by_cases hsome : (dget? m t).isSome
      · simp only [hsome, if_true]
        refine ⟨?_, ?_⟩
        · exact nodup_keys_dset e _ houter
        · intro p hp
          rcases mem_dset hp with h' | h'
          · exact hrows p h'
          · subst h'
            exact nodup_keys_derase t (hrows (e, m) (dget?_mem hm))
      · simp only [hsome, if_false]
        exact ⟨houter, hrows⟩

theorem StorageOk_destroy (s : LocalStorage) (e : EntityId) (s' : LocalStorage)
    (h : StorageOk s) (hd : s.destroy_entity e = Except.ok s') : StorageOk s' := by
  obtain ⟨houter, hrows⟩ := h
  unfold LocalStorage.destroy_entity at hd
  by_cases hsome : (dget? s.components e).isSome
  · rw [if_pos hsome] at hd
    cases halloc : s.allocator.deallocate e with
    | error pe => rw [halloc] at hd; exact absurd hd (by simp [Bind.bind, Except.bind])
    | ok a' =>
        rw [halloc] at hd
        have : s' = { s with components := derase s.components e, allocator := a' } := by
          have := hd
          simp [Bind.bind, Except.bind] at this
          exact this.symm
        subst this
        refine ⟨nodup_keys_derase e houter, ?_⟩
        intro p hp
        exact hrows p (mem_derase hp)
  · rw [if_neg hsome] at hd
    have : s' = s := by simpa using hd.symm
    subst this
    exact ⟨houter, hrows⟩

theorem get_component_remove_self (s : LocalStorage) (e : EntityId) (t : CompType)
    (h : StorageOk s) : ((s.remove_component e t).1).get_component e t = none := by
  obtain ⟨_, hrows⟩ := h
  unfold LocalStorage.remove_component
  cases hm : dget? s.components e with
  | none => simp [LocalStorage.get_component, hm]
  | some m =>
      by_cases hsome : (dget? m t).isSome
      · simp only [hsome, if_true]
        have hnodup : (m.map Prod.fst).Nodup := hrows (e, m) (dget?_mem hm)
        simp [LocalStorage.get_component, dget?_dset_self, dget?_derase_self t hnodup]
      · simp only [hsome, if_false]
        simp [LocalStorage.get_component, hm, Option.not_isSome_iff_eq_none.mp hsome]

theorem get_component_none_remove (s : LocalStorage) (e : EntityId) (t : CompType)
    (e' : EntityId) (t' : CompType) (h : s.get_component e t = none) :
    ((s.remove_component e' t').1).get_component e t = none := by
  unfold LocalStorage.remove_component
  cases hm : dget? s.components e' with
  | none => exact h
  | some m =>
      by_cases hsome : (dget? m t').isSome
      · simp only [hsome, if_true]
        by_cases hee : e = e'
        · subst hee
          have hmt : dget? m t = none := by
            simpa [LocalStorage.get_component, hm] using h
          simp [LocalStorage.get_component, dget?_dset_self, dget?_derase_none m t' t hmt]
        · simpa [LocalStorage.get_component, dget?_dset_ne s.components e' e _ hee] using h
      · simp only [hsome, if_false]
        exact h

theorem get_component_none_destroy (s : LocalStorage) (e : EntityId) (t : CompType)
    (e' : EntityId) (s' : LocalStorage) (hok : StorageOk s)
    (h : s.get_component e t = none) (hd : s.destroy_entity e' = Except.ok s') :
    s'.get_component e t = none := by
  unfold LocalStorage.destroy_entity at hd
  by_cases hsome : (dget? s.components e').isSome
  · rw [if_pos hsome] at hd
    cases halloc : s.allocator.deallocate e' with
    | error pe => rw [halloc] at hd; exact absurd hd (by simp [Bind.bind, Except.bind])
    | ok a' =>
        rw [halloc] at hd
        have hs' : s' = { s with components := derase s.components e', allocator := a' } := by
          have := hd
          simp [Bind.bind, Except.bind] at this
          exact this.symm
        subst hs'
        by_cases hee : e = e'
        · subst hee
          simp [LocalStorage.get_component, dget?_derase_self e hok.1]
        · simpa [LocalStorage.get_component, dget?_derase_ne s.components e' e hee] using h
  · rw [if_neg hsome] at hd
    have : s' = s := by simpa using hd.symm
    subst this
    exact h

/-! Generic fold preservation. -/

theorem foldl_preserve {σ ι : Type} {P : σ → Prop} {f : σ → ι → σ}
    (hf : ∀ x a, P x → P (f x a)) :
    ∀ (l : List ι) (x : σ), P x → P (l.foldl f x) := by
  intro l
  induction l with
  | nil => intro x hx; simpa using hx
  | cons a rest ih =>
      intro x hx
      simpa using ih (f x a) (hf x a hx)

theorem foldlM_except_preserve {σ ι ε : Type} {P : σ → Prop}
    {f : σ → ι → Except ε σ}
    (hf : ∀ x a y, P x → f x a = Except.ok y → P y) :
    ∀ (l : List ι) (x y : σ), P x → l.foldlM f x = Except.ok y → P y := by
  intro l
  induction l with
  | nil =>
      intro x y hx hfold
      have : x = y := by simpa [List.foldlM, pure, Except.pure] using hfold
      exact this ▸ hx
  | cons a rest ih =>
      intro x y hx hfold
      rw [List.foldlM_cons] at hfold
      cases hfa : f x a with
      | error pe => rw [hfa] at hfold; exact absurd hfold (by simp [Bind.bind, Except.bind])
      | ok x' =>
          rw [hfa] at hfold
          simp only [Bind.bind, Except.bind] at hfold
          exact ih x' y (hf x a x' hx hfa) hfold

theorem except_bind_ok {ε α β : Type} (m : Except ε α) (g : α → β) (res : β)
    (h : (m >>= fun x => Except.ok (g x)) = Except.ok res) :
    ∃ x, m = Except.ok x ∧ g x = res := by
  cases m with
  | error e => simp [Bind.bind, Except.bind] at h
  | ok x =>
      refine ⟨x, rfl, ?_⟩
      simpa [Bind.bind, Except.bind] using h

/-! Phase-level invariants of the commit pipeline. -/

theorem storageOk_setUpdatesPhase (updates : List (EntityId × List (CompType × Component)))
    (s : LocalStorage) (h : StorageOk s) : StorageOk (setUpdatesPhase updates s) :=
  foldl_preserve
    (fun x p hx =>
      foldl_preserve (fun y q hy => StorageOk_set y p.1 q.2 hy) p.2 x hx)
    updates s h

theorem storageOk_setInsertsPhase (inserts : List (EntityId × List Component))
    (s : LocalStorage) (h : StorageOk s) : StorageOk (setInsertsPhase inserts s) :=
  foldl_preserve
    (fun x p hx =>
      foldl_preserve (fun y c hy => StorageOk_set y p.1 c hy) p.2 x hx)
    inserts s h

theorem storageOk_removeEntityTypes (e : EntityId) (ts : List CompType)
    (s : LocalStorage) (h : StorageOk s) : StorageOk (removeEntityTypes e ts s) :=
  foldl_preserve (fun x t hx => StorageOk_remove x e t hx) ts s h

theorem storageOk_removesPhase (removes : List (EntityId × List CompType))
    (s : LocalStorage) (h : StorageOk s) : StorageOk (removesPhase removes s) :=
  foldl_preserve (fun x p hx => storageOk_removeEntityTypes p.1 p.2 x hx) removes s h

theorem storageOk_spawnPhase (s : LocalStorage) (spawns : List (List Component))
    (h : StorageOk s) : StorageOk (World.spawnPhase s spawns).2 := by
  refine foldl_preserve (P := fun pr : List EntityId × LocalStorage => StorageOk pr.2)
    ?_ spawns ([], s) h
  intro x comps hx
  exact foldl_preserve (fun y c hy => StorageOk_set y _ c hy) comps _
    (StorageOk_create x.2 hx)

theorem none_removeEntityTypes (e : EntityId) (t : CompType) (e' : EntityId)
    (ts : List CompType) (s : LocalStorage) (h : s.get_component e t = none) :
    (removeEntityTypes e' ts s).get_component e t = none :=
  foldl_preserve (fun x t' hx => get_component_none_remove x e t e' t' hx) ts s h

theorem removeEntityTypes_hits (e : EntityId) (t : CompType) (ts : List CompType)
    (s : LocalStorage) (hok : StorageOk s) (ht : t ∈ ts) :
    (removeEntityTypes e ts s).get_component e t = none := by
  induction ts generalizing s with
  | nil => cases ht
  | cons t' rest ih =>
      rw [show removeEntityTypes e (t' :: rest) s =
            removeEntityTypes e rest ((s.remove_component e t').1) from by
          simp [removeEntityTypes]]
      rcases List.mem_cons.mp ht with h' | h'
      · subst h'
        exact none_removeEntityTypes e t e rest _ (get_component_remove_self s e t hok)
      · exact ih _ (StorageOk_remove s e t' hok) h'

theorem none_removesPhase (e : EntityId) (t : CompType)
    (removes : List (EntityId × List CompType)) (s : LocalStorage)
    (h : s.get_component e t = none) :
    (removesPhase removes s).get_component e t = none :=
  foldl_preserve (fun x p hx => none_removeEntityTypes e t p.1 p.2 x hx) removes s h

theorem removesPhase_hits (e : EntityId) (t : CompType)
    (removes : List (EntityId × List CompType)) (s : LocalStorage)
    (hok : StorageOk s) (hmem : ∃ ts, (e, ts) ∈ removes ∧ t ∈ ts) :
    (removesPhase removes s).get_component e t = none := by
  induction removes generalizing s with
  | nil =>
      obtain ⟨ts, hts, _⟩ := hmem
      cases hts
  | cons p rest ih =>
      obtain ⟨ts, hts, ht⟩ := hmem
      rw [show removesPhase (p :: rest) s =
            removesPhase rest (removeEntityTypes p.1 p.2 s) from by
          simp [removesPhase]]
      rcases List.mem_cons.mp hts with h' | h'
      · have he : p.1 = e ∧ p.2 = ts := by
          constructor <;> simp [← h']
        exact none_removesPhase e t rest _
          (he.1 ▸ he.2 ▸ removeEntityTypes_hits p.1 t p.2 s hok (he.2.symm ▸ ht))
      · exact ih _ (storageOk_removeEntityTypes p.1 p.2 s hok) ⟨ts, h', ht⟩

theorem destroysPhase_preserves_none (e : EntityId) (t : CompType)
    (destroys : List EntityId) (s s' : LocalStorage)
    (hok : StorageOk s) (h : s.get_component e t = none)
    (hd : destroysPhase destroys s = Except.ok s') :
    s'.get_component e t = none := by
  have := foldlM_except_preserve
    (P := fun x : LocalStorage => StorageOk x ∧ x.get_component e t = none)
    (f := fun acc e' => acc.destroy_entity e')
    (fun x a y hx hstep =>
      ⟨StorageOk_destroy x a y hx.1 hstep,
       get_component_none_destroy x e t a y hx.1 hx.2 hstep⟩)
    destroys s s' ⟨hok, h⟩ hd
  exact this.2

theorem apply_updates_remove_commits_absent (s : LocalStorage)
    (updates : List (EntityId × List (CompType × Component)))
    (inserts : List (EntityId × List Component))
    (removes : List (EntityId × List CompType))
    (destroys : List EntityId) (e : EntityId) (t : CompType) (s' : LocalStorage)
    (hok : StorageOk s)
    (hrem : ∃ ts, (e, ts) ∈ removes ∧ t ∈ ts)
    (happ : s.apply_updates updates inserts removes destroys = Except.ok s') :
    s'.get_component e t = none := by
  unfold LocalStorage.apply_updates at happ
  obtain ⟨s4, hd, hres⟩ := except_bind_ok _ _ _ happ
  have hok3 : StorageOk (removesPhase removes (setInsertsPhase inserts (setUpdatesPhase updates s))) :=
    storageOk_removesPhase removes _
      (storageOk_setInsertsPhase inserts _ (storageOk_setUpdatesPhase updates s hok))
  have hnone3 :
      (removesPhase removes (setInsertsPhase inserts (setUpdatesPhase updates s))).get_component e t = none :=
    removesPhase_hits e t removes _
      (storageOk_setInsertsPhase inserts _ (storageOk_setUpdatesPhase updates s hok)) hrem
  have := destroysPhase_preserves_none e t destroys _ s4 hok3 hnone3 hd
  exact hres ▸ this

/-! ## Claim theorems -/

/-- C1: the spec claims a buffered write through `update`/`insert`/`remove`
is observed by later `get`/`query` calls and committed to storage.  On the
code, each of those write methods mutates the throwaway dict built by the
corresponding `SystemResult` projection property and then crashes: with an
unrestricted descriptor and the empty buffer `execute_system_async`
allocates, `update`, `insert` and `remove` all raise `KeyError` instead of
buffering the write, so the claimed read-back and commit never happen. -/
theorem scoped_write_methods_raise_key_error :
    ScopedAccess.update openDescriptor {} ⟨0, 1000, 0⟩ ⟨1, 1⟩ =
      Except.error PyErr.keyError ∧
    ScopedAccess.insert openDescriptor {} ⟨0, 1000, 0⟩ ⟨1, 1⟩ =
      Except.error PyErr.keyError ∧
    ScopedAccess.remove openDescriptor {} ⟨0, 1000, 0⟩ 1 =
      Except.error PyErr.keyError := by
  refine ⟨?_, ?_, ?_⟩ <;> rfl

/-- C2 counterexample: a buffer that records `remove(e, T)` before
`update(e, T(99))` commits to a storage in which `(e, T)` is absent — not
"present with the new value" as the claim states. -/
theorem remove_then_set_commits_absent :
    (World.apply_result removeThenSetStorage removeThenSetBuffer).map
        (fun pr => pr.2.get_component ⟨0, 1000, 0⟩ 5) = Except.ok none := by
  rfl

/-- C2 (amended): commit does not replay ops in recorded order; it applies
them grouped by kind (spawns, then updates, then inserts, then removes,
then destroys).  Consequently, whenever a buffer records a remove of
`(entity, type)` — in any position relative to updates of the same pair —
a successful commit leaves that component absent. -/
theorem apply_result_remove_commits_absent (s : LocalStorage) (r : SystemResult)
    (e : EntityId) (t : CompType) (res : List EntityId × LocalStorage)
    (hok : StorageOk s)
    (hrem : ∃ ts, dget? r.removes e = some ts ∧ t ∈ ts)
    (happ : World.apply_result s r = Except.ok res) :
    res.2.get_component e t = none := by
  unfold World.apply_result at happ
  obtain ⟨s2, hau, hres⟩ := except_bind_ok _ _ _ happ
  obtain ⟨ts, hget, ht⟩ := hrem
  have hnone := apply_updates_remove_commits_absent _ r.updates r.inserts r.removes
    r.destroys e t s2 (storageOk_spawnPhase s r.spawns hok)
    ⟨ts, dget?_mem hget, ht⟩ hau
  rw [← hres]
  exact hnone

/-- Witness for C2 (amended) at the concrete remove-then-update fixture. -/
theorem apply_result_remove_commits_absent_witness :
    StorageOk removeThenSetStorage ∧
    (∃ ts, dget? removeThenSetBuffer.removes (⟨0, 1000, 0⟩ : EntityId) = some ts ∧
      (5 : CompType) ∈ ts) ∧
    World.apply_result removeThenSetStorage removeThenSetBuffer =
      Except.ok ([], removeThenSetCommitted) ∧
    removeThenSetCommitted.get_component ⟨0, 1000, 0⟩ 5 = none := by
  have hok : StorageOk removeThenSetStorage := ⟨by decide, by decide⟩
  have hrem : ∃ ts, dget? removeThenSetBuffer.removes (⟨0, 1000, 0⟩ : EntityId) = some ts ∧
      (5 : CompType) ∈ ts := ⟨[5], rfl, by decide⟩
  have happ : World.apply_result removeThenSetStorage removeThenSetBuffer =
      Except.ok ([], removeThenSetCommitted) := by rfl
  exact ⟨hok, hrem, happ,
    apply_result_remove_commits_absent removeThenSetStorage removeThenSetBuffer
      ⟨0, 1000, 0⟩ 5 ([], removeThenSetCommitted) hok hrem happ⟩

/-- C3: the claim (matching the repository's own test
`test_merge_entities_non_combinable_lww`) says that for a component type
without the combine protocol, the merged entity carries `b`'s value.  The
code's default is `NonMergeableHandling.FIRST`: merging the two `PlainTag`
entities yields the *first* entity's payload (0, "alice"), not the
second's (1, "bob"); both originals are destroyed. -/
theorem merge_entities_defaults_to_first_value :
    (World.merge_entities plainEnv tagStorage ⟨0, 1000, 0⟩ ⟨0, 1001, 0⟩).map
        (fun pr => (pr.2.get_component pr.1 1,
                    pr.2.entity_exists ⟨0, 1000, 0⟩,
                    pr.2.entity_exists ⟨0, 1001, 0⟩)) =
      Except.ok (some ⟨1, 0⟩, false, false) := by
  rfl

/-- C4 counterexample: the claim says every written `(entity, type)` pair is
validated regardless of op kind.  A buffer holding a remove of type 5, a
spawn of a type-5 component and a destroy passes validation against the
empty (`NoAccess`) write pattern without any access-violation error. -/
theorem validate_ignores_remove_spawn_destroy :
    validate_result_access nonWritePatternOps AccessPattern.noAccess = Except.ok () := by
  rfl

/-- C4 (amended): `validate_result_access` checks exactly the update and
insert ops against the declared write pattern (everything passes under
`AllAccess`); remove, spawn and destroy ops are never examined, so
appending them to a buffer cannot change the validation outcome. -/
theorem validate_checks_only_updates_and_inserts (r : SystemResult)
    (w : AccessPattern) (e e' : EntityId) (t : CompType) (cs : List Component) :
    (validate_result_access r w = Except.ok () ↔
      (w = AccessPattern.allAccess ∨
        ((∀ p ∈ r.updates, ∀ q ∈ p.2, q.1 ∈ writableTypes w) ∧
         (∀ p ∈ r.inserts, ∀ c ∈ p.2, get_type c ∈ writableTypes w)))) ∧
    validate_result_access (((r.record_remove e t).record_spawn cs).record_destroy e') w =
      validate_result_access r w := by
  constructor
  · cases w <;>
      simp [validate_result_access, writableTypes, List.all_eq_true, Bool.and_eq_true,
        ite_eq_iff]
  · have hu : (((r.record_remove e t).record_spawn cs).record_destroy e').updates =
        r.updates := by
      simp [SystemResult.record_remove, SystemResult.record_spawn,
        SystemResult.record_destroy, SystemResult.updates, List.foldl_append, updatesStep]
    have hi : (((r.record_remove e t).record_spawn cs).record_destroy e').inserts =
        r.inserts := by
      simp [SystemResult.record_remove, SystemResult.record_spawn,
        SystemResult.record_destroy, SystemResult.inserts, List.foldl_append, insertsStep]
    unfold validate_result_access
    cases w <;> first
      | rfl
      | rw [hu, hi]

/-- C5: the claim says the snapshot round-trip preserves every protocol
observation, in particular liveness.  `snapshot` pickles only
`allocator_next` out of the allocator, dropping `_generations` and
`_free_list`; restoring into a fresh `LocalStorage` therefore leaves the
entity's row in `_components` but the allocator reports it dead, so
`entity_exists` flips from true to false and `all_entities` from one entity
to none. -/
theorem restore_drops_liveness :
    snapshotSourceStorage.entity_exists ⟨0, 1000, 0⟩ = true ∧
    snapshotSourceStorage.all_entities = [⟨0, 1000, 0⟩] ∧
    ((LocalStorage.init 0).restore snapshotSourceStorage.snapshot).components =
      snapshotSourceStorage.components ∧
    ((LocalStorage.init 0).restore snapshotSourceStorage.snapshot).entity_exists
      ⟨0, 1000, 0⟩ = false ∧
    ((LocalStorage.init 0).restore snapshotSourceStorage.snapshot).all_entities = [] := by
  refine ⟨?_, ?_, ?_, ?_, ?_⟩ <;> rfl

/-- C6 counterexample: `normalize_access` maps a tuple of one type to a
`TypeAccess`, but applied to that `TypeAccess` it raises `TypeError` — the
second application does not succeed, let alone return the same pattern. -/
theorem normalize_access_not_idempotent :
    normalize_access (AccessSpec.tupleSpec [SpecElem.ty 0]) =
      Except.ok (AccessPattern.typeAccess [0]) ∧
    normalize_access (AccessSpec.patternSpec (AccessPattern.typeAccess [0])) =
      Except.error PyErr.typeError := by
  exact ⟨rfl, rfl⟩

/-- C6 (amended): for an access spec `x` accepted by `normalize_access`,
re-normalizing the result succeeds (and is the identity) exactly when the
result is `AllAccess` or `NoAccess`; a `TypeAccess` or `QueryAccess` result
makes the second application raise `TypeError`. -/
theorem normalize_access_idempotent_iff (x : AccessSpec) (p : AccessPattern)
    (h : normalize_access x = Except.ok p) :
    (normalize_access (AccessSpec.patternSpec p) = Except.ok p ↔
      (p = AccessPattern.allAccess ∨ p = AccessPattern.noAccess)) := by
  cases p <;> simp [normalize_access]

/-- Witness for C6 (amended) at `x = None`, whose normalization is
`AllAccess`. -/
theorem normalize_access_idempotent_iff_witness :
    normalize_access AccessSpec.noneSpec = Except.ok AccessPattern.allAccess ∧
    (normalize_access (AccessSpec.patternSpec AccessPattern.allAccess) =
        Except.ok AccessPattern.allAccess ↔
      (AccessPattern.allAccess = AccessPattern.allAccess ∨
       AccessPattern.allAccess = AccessPattern.noAccess)) :=
  ⟨rfl, normalize_access_idempotent_iff AccessSpec.noneSpec AccessPattern.allAccess rfl⟩

/-- C7: from any allocator whose free list is consistent with its generation
map, `allocate` yields a live entity `e`; `deallocate(e)` then succeeds,
flips `is_alive(e)` to false, and the immediately following `allocate`
reuses `e`'s index with generation `e.generation + 1`. -/
theorem allocator_recycles_freed_slot (a : EntityAllocator) (h : a.Inv) :
    (a.allocate.2).is_alive a.allocate.1 = true ∧
    ∃ a2, (a.allocate.2).deallocate a.allocate.1 = Except.ok a2 ∧
      a2.is_alive a.allocate.1 = false ∧
      a2.allocate.1 =
        ⟨a.allocate.1.shard, a.allocate.1.index, a.allocate.1.generation + 1⟩ := by
  obtain ⟨sh, ni, fl, gens⟩ := a
  cases fl with
  | nil =>
      refine ⟨?_, ?_⟩
      · simp [EntityAllocator.allocate, EntityAllocator.is_alive, dget?_dset_self]
      · refine ⟨{ shard := sh, next_index := ni + 1, free_list := [(ni, 1)],
                  generations := dset (dset gens ni 0) ni 1 }, ?_, ?_, ?_⟩
        · simp [EntityAllocator.allocate, EntityAllocator.deallocate]
        · simp [EntityAllocator.allocate, EntityAllocator.is_alive, dget?_dset_self]
        · simp [EntityAllocator.allocate]
  | cons p rest =>
      obtain ⟨i, g⟩ := p
      have hg : dget? gens i = some g := h (i, g) (List.mem_cons_self _ _)
      refine ⟨?_, ?_⟩
      · simp [EntityAllocator.allocate, EntityAllocator.is_alive, hg]
      · refine ⟨{ shard := sh, next_index := ni, free_list := (i, g + 1) :: rest,
                  generations := dset gens i (g + 1) }, ?_, ?_, ?_⟩
        · simp [EntityAllocator.allocate, EntityAllocator.deallocate]
        · simp [EntityAllocator.allocate, EntityAllocator.is_alive, dget?_dset_self]
        · simp [EntityAllocator.allocate]

/-- Witness for C7 at the freshly initialized shard-0 allocator. -/
theorem allocator_recycles_freed_slot_witness :
    ((EntityAllocator.init 0).allocate.2).is_alive (EntityAllocator.init 0).allocate.1 =
      true ∧
    ∃ a2, ((EntityAllocator.init 0).allocate.2).deallocate
        (EntityAllocator.init 0).allocate.1 = Except.ok a2 ∧
      a2.is_alive (EntityAllocator.init 0).allocate.1 = false ∧
      a2.allocate.1 =
        ⟨(EntityAllocator.init 0).allocate.1.shard,
         (EntityAllocator.init 0).allocate.1.index,
         (EntityAllocator.init 0).allocate.1.generation + 1⟩ :=
  allocator_recycles_freed_slot (EntityAllocator.init 0)
    (fun p hp => absurd hp (List.not_mem_nil p))

/-- C8: `queries_disjoint` is sound — when it returns true, no archetype is
matched by both queries. -/
theorem queries_disjoint_sound (q1 q2 : Query) (arch : List CompType)
    (h : queries_disjoint q1 q2 = true) :
    ¬(q1.matches_archetype arch = true ∧ q2.matches_archetype arch = true) := by
  rintro ⟨h1, h2⟩
  simp only [queries_disjoint, Bool.or_eq_true, List.any_eq_true,
    decide_eq_true_eq] at h
  simp only [Query.matches_archetype, Bool.and_eq_true, List.all_eq_true,
    decide_eq_true_eq] at h1 h2
  rcases h with ⟨t, ht1, ht2⟩ | ⟨t, ht2, ht1⟩
  · exact h2.2 t ht2 (h1.1 t ht1)
  · exact h1.2 t ht1 (h2.1 t ht2)

/-- Witness for C8: query requiring type 0 against query excluding type 0,
on the archetype containing type 0. -/
theorem queries_disjoint_sound_witness :
    queries_disjoint ⟨[0], []⟩ ⟨[], [0]⟩ = true ∧
    ¬((Query.matches_archetype ⟨[0], []⟩ [0] = true) ∧
      (Query.matches_archetype ⟨[], [0]⟩ [0] = true)) :=
  ⟨by decide, queries_disjoint_sound ⟨[0], []⟩ ⟨[], [0]⟩ [0] (by decide)⟩

/-- C9: `ScopedAccess.destroy` records without any writability or mode
check and never raises an access violation, for every descriptor — even a
READONLY one or one whose write pattern rejects the type — whereas
`update`, `insert`, `remove` and `spawn` all run `_check_writable` first
and raise `AccessViolationError` for such a descriptor. -/
theorem destroy_skips_write_check (d : SystemDescriptor) (buf : SystemResult)
    (e : EntityId) (c : Component)
    (hdev : d.runs_alone = false)
    (hw : d.mode = SystemMode.readonly ∨ d.can_write_type (get_type c) = false) :
    ScopedAccess.destroy d buf e = Except.ok buf ∧
    ScopedAccess.update d buf e c = Except.error PyErr.accessViolation ∧
    ScopedAccess.insert d buf e c = Except.error PyErr.accessViolation ∧
    ScopedAccess.remove d buf e (get_type c) = Except.error PyErr.accessViolation ∧
    ScopedAccess.spawn d buf [c] = Except.error PyErr.accessViolation := by
  have hcw : check_writable d (get_type c) = Except.error PyErr.accessViolation := by
    unfold check_writable
    rw [show d.is_dev_mode = false from hdev]
    by_cases hmode : d.mode = SystemMode.readonly
    · simp [hmode]
    · rcases hw with hw | hw
      · exact absurd hw hmode
      · simp [hmode, hw]
  refine ⟨rfl, ?_, ?_, ?_, ?_⟩
  · unfold ScopedAccess.update
    rw [hcw]
    rfl
  · unfold ScopedAccess.insert
    rw [hcw]
    rfl
  · unfold ScopedAccess.remove
    rw [hcw]
    rfl
  · unfold ScopedAccess.spawn
    simp [hcw, Bind.bind, Except.bind]

/-- Witness for C9 at a READONLY descriptor with a `NoAccess` write
pattern. -/
theorem destroy_skips_write_check_witness :
    ScopedAccess.destroy readonlyDescriptor {} ⟨0, 1000, 0⟩ =
      Except.ok ({} : SystemResult) ∧
    ScopedAccess.update readonlyDescriptor {} ⟨0, 1000, 0⟩ ⟨7, 1⟩ =
      Except.error PyErr.accessViolation ∧
    ScopedAccess.insert readonlyDescriptor {} ⟨0, 1000, 0⟩ ⟨7, 1⟩ =
      Except.error PyErr.accessViolation ∧
    ScopedAccess.remove readonlyDescriptor {} ⟨0, 1000, 0⟩ (get_type ⟨7, 1⟩) =
      Except.error PyErr.accessViolation ∧
    ScopedAccess.spawn readonlyDescriptor {} [⟨7, 1⟩] =
      Except.error PyErr.accessViolation :=
  destroy_skips_write_check readonlyDescriptor {} ⟨0, 1000, 0⟩ ⟨7, 1⟩ rfl
    (Or.inl rfl)

/-- C10: `normalize_result` ignores the component-type keys of the
dict-of-dicts shorthand: the recorded update depends only on the entity and
the component value (two entries differing only in the inner key normalize
identically), no error is raised, and the resulting `updates` projection
files the component under its own runtime type. -/
theorem normalize_result_ignores_dict_keys (e : EntityId) (k k' : CompType)
    (c : Component) :
    normalize_result (SystemReturn.dictRet [(e, DictValue.comps [(k, c)])]) =
      normalize_result (SystemReturn.dictRet [(e, DictValue.comps [(k', c)])]) ∧
    (normalize_result (SystemReturn.dictRet [(e, DictValue.comps [(k, c)])])).updates =
      [(e, [(get_type c, c)])] := by
  exact ⟨rfl, rfl⟩

end AgentEcs
